import Mathlib

/-!
Shallow embedding of `rio/cli/project_setup.py`: the template-to-filesystem
assembly pipeline (name derivation, fragment rendering, project creation).

Python strings are modelled as Lean `String`/`List Char`; the string-level
operations used by the source (`str.lower`, `str.capitalize`, `str.split`,
`str.replace`, slicing, `str.endswith`) are modelled at their ASCII behavior,
which is the range exercised by the generator. Python `assert` failures and
raised exceptions are modelled as `Option`/error results.
-/

namespace RioSetup

/-- ASCII uppercase letter test (matches Python `str.isupper` on ASCII). -/
def isUp (c : Char) : Bool := decide (65 ≤ c.toNat ∧ c.toNat ≤ 90)

/-- ASCII lowercase letter test. -/
def isLow (c : Char) : Bool := decide (97 ≤ c.toNat ∧ c.toNat ≤ 122)

/-- ASCII digit test (matches Python `str.isdigit` on ASCII). -/
def isDig (c : Char) : Bool := decide (48 ≤ c.toNat ∧ c.toNat ≤ 57)

/-- Single-character model of Python `c.isidentifier()` at ASCII scope:
letters and the underscore. -/
def isIdentChar (c : Char) : Bool := isUp c || isLow c || decide (c = '_')

/-- ASCII lowercasing of one character (Python `str.lower` per character). -/
def asciiLower (c : Char) : Char :=
  if 65 ≤ c.toNat ∧ c.toNat ≤ 90 then Char.ofNat (c.toNat + 32) else c

/-- ASCII uppercasing of one character (Python `str.upper` per character). -/
def asciiUpper (c : Char) : Char :=
  if 97 ≤ c.toNat ∧ c.toNat ≤ 122 then Char.ofNat (c.toNat - 32) else c

/-- The underscore-to-hyphen character transform used for directory names
(`module_name.replace("_", "-")` in `create_project`). -/
def underscoreToHyphen (c : Char) : Char := if c = '_' then '-' else c

/-- The inverse character transform (hyphen back to underscore). -/
def hyphenToUnderscore (c : Char) : Char := if c = '-' then '_' else c

/-- Does a word break get inserted before an uppercase letter?  True when the
previous original character is a lowercase letter or a digit. -/
def snakeBreakAfter : Option Char → Bool
  | none => false
  | some p => isLow p || isDig p

/-- Helper for `convertCaseSnake`: walks the characters, remembering the
previous original character. -/
def snakeAux : Option Char → List Char → List Char
  | _, [] => []
  | prev, c :: rest =>
    if c = ' ' ∨ c = '-' then
      '_' :: snakeAux (some c) rest
    else if isUp c && snakeBreakAfter prev then
      '_' :: asciiLower c :: snakeAux (some c) rest
    else
      asciiLower c :: snakeAux (some c) rest

/-- Modelled from the spec: `introspection.convert_case(raw_name, "snake")`
comes from the external `introspection` package, which is not part of this
repository's sources.  Per §4.1 of the spec it "converts `rawName` to a
lowercase, underscore-separated identifier form": spaces and hyphens become
underscores, an uppercase letter following a lowercase letter or digit opens a
new underscore-separated word, and every letter is lowercased; all other
characters pass through unchanged (they are stripped later). -/
def convertCaseSnake (l : List Char) : List Char := snakeAux none l

/-- The characters removed by `strip_invalid_filename_characters`
(`re.sub(r'[<>:"/\\|?*]', "", name)`). -/
def invalidFilenameChars : List Char := ['<', '>', ':', '"', '/', '\\', '|', '?', '*']

/-- `strip_invalid_filename_characters` from the source: drop every character
that is not allowed in a filename. -/
def stripInvalidFilenameChars (l : List Char) : List Char :=
  l.filter (fun c => decide (¬ c ∈ invalidFilenameChars))

/-- The character filter inside `derive_module_name`:
`c.isidentifier() or c in string.digits`. -/
def identFilter (l : List Char) : List Char :=
  l.filter (fun c => isIdentChar c || isDig c)

/-- `derive_module_name` from the source, at the level of character lists:
snake-case conversion, identifier-character filtering, filename-character
stripping, removal of leading digits, and the `"rio_app"` fallback. -/
def deriveModuleNameL (l : List Char) : List Char :=
  let n1 := convertCaseSnake l
  let n2 := identFilter n1
  let n3 := stripInvalidFilenameChars n2
  let n4 := n3.dropWhile isDig
  if n4.isEmpty then ['r', 'i', 'o', '_', 'a', 'p', 'p'] else n4

/-- `derive_module_name` from the source. -/
def deriveModuleName (rawName : String) : String := ⟨deriveModuleNameL rawName.data⟩

/-- The project directory name: `module_name.replace("_", "-")` from
`create_project` (the variable `dashed_name`). -/
def deriveDirectoryName (rawName : String) : String :=
  ⟨(deriveModuleNameL rawName.data).map underscoreToHyphen⟩

/-- Python `str.split(sep)` semantics for a single-character separator:
`"a__b".split("_") == ["a", "", "b"]` and `"".split("_") == [""]`. -/
def splitOnChar (sep : Char) : List Char → List (List Char)
  | [] => [[]]
  | c :: rest =>
    let r := splitOnChar sep rest
    if c = sep then [] :: r
    else
      match r with
      | [] => [[c]]
      | x :: xs => (c :: x) :: xs

/-- Python `str.capitalize()`: first character uppercased, the rest
lowercased. -/
def pyCapitalizeL : List Char → List Char
  | [] => []
  | c :: rest => asciiUpper c :: rest.map asciiLower

/-- Python `str.capitalize()` on strings. -/
def pyCapitalize (s : String) : String := ⟨pyCapitalizeL s.data⟩

/-- Concatenation of a list of character lists. -/
def joinL (ls : List (List Char)) : List Char := ls.foldr (· ++ ·) []

/-- The class-name derivation shared by the generators, on the stem (file name
with the `.py` suffix already removed):
`"".join(part.capitalize() for part in stem.split("_"))`. -/
def classNameOfStemL (stem : List Char) : List Char :=
  joinL ((splitOnChar '_' stem).map pyCapitalizeL)

/-- Class-name derivation on strings. -/
def classNameOfStem (stem : String) : String := ⟨classNameOfStemL stem.data⟩

/-- Structural prefix test on character lists. -/
def isPrefixL : List Char → List Char → Bool
  | [], _ => true
  | _ :: _, [] => false
  | a :: as, b :: bs => decide (a = b) && isPrefixL as bs

/-- Python `str.endswith(suffix)`. -/
def pyEndsWith (s suffix : String) : Bool :=
  isPrefixL suffix.data.reverse s.data.reverse

/-- The stem of a snippet file name: Python `name[:-3]` (used only under the
assertion that the name ends in `".py"`). -/
def stemOfL (l : List Char) : List Char := l.take (l.length - 3)

/-- The stem of a snippet file name, as a string. -/
def stemOf (name : String) : String := ⟨stemOfL name.data⟩

/-- The typed failure conditions of the generator (§7 of the spec).
`directoryNotEmpty` models the `fatal(...)` call for a populated target,
`sectionNotFound` models the propagated `KeyError` of `Snippet.get_section`,
`unsupportedConfiguration` models the `NotImplementedError` raised for more
than one page snippet, `assertionFailed` models a failing Python `assert`,
`fileExists` models `FileExistsError`/`FileNotFoundError` from `mkdir`, and
`indexError` models indexing an empty page list. -/
inductive SetupError where
  | directoryNotEmpty
  | sectionNotFound (sectionName : String)
  | unsupportedConfiguration
  | assertionFailed
  | fileExists
  | indexError
deriving DecidableEq

/-- Modelled from the spec: the `rio.snippets.Snippet` class is loaded by the
external catalog and is not under `src/`.  Per §3/§4.2/§9 a snippet is a named
source fragment whose delimited sections are represented as a mapping from
section name to the text strictly between the markers; `strippedCode` is the
full-snippet accessor (source text with marker lines removed) and
`originFileName`/`fileContent` model the origin path's base name and bytes,
used only for asset copying. -/
structure Snippet where
  name : String
  originFileName : String
  fileContent : String
  sections : List (String × String)
  strippedCode : String
deriving DecidableEq

/-- Modelled from the spec: `Snippet.get_section(name)` looks the section up
by name; a missing section raises `KeyError`, modelled as `none`. -/
def getSection (snip : Snippet) (sectionName : String) : Option String :=
  (snip.sections.find? (fun kv => decide (kv.1 = sectionName))).map (fun kv => kv.2)

/-- `class_name_from_snippet` from the source: asserts that the snippet name
ends in `".py"` (`none` models the failing assertion), then derives the class
name from the stem `name[:-3]`. -/
def classNameFromSnippet (snip : Snippet) : Option String :=
  if pyEndsWith snip.name ".py" then some (classNameOfStem (stemOf snip.name)) else none

/-- One line of `write_init_file`:
`from .<module_name> import <class_name>\n`, guarded by the assertion that the
snippet name ends in `".py"`. -/
def initFileLine (snip : Snippet) : Option String :=
  if pyEndsWith snip.name ".py" then
    (classNameFromSnippet snip).map
      (fun cls => "from ." ++ stemOf snip.name ++ " import " ++ cls ++ "\n")
  else none

/-- Maps an `Option`-valued function over a list, failing as soon as one
element fails. -/
def optionMapList (f : α → Option β) : List α → Option (List β)
  | [] => some []
  | a :: l =>
    match f a, optionMapList f l with
    | some b, some bs => some (b :: bs)
    | _, _ => none

/-- `write_init_file` from the source: the whole barrel-file content, `none`
when some snippet name fails the `".py"` assertion. -/
def writeInitFile (snippets : List Snippet) : Option String :=
  (optionMapList initFileLine snippets).map String.join

/-- The content `write_init_file` has emitted when the loop stops: the lines
for the longest prefix of snippets whose names end in `".py"`, paired with the
assertion failure if the loop aborted partway. -/
def initLinesPartial : List Snippet → String × Option SetupError
  | [] => ("", none)
  | snip :: rest =>
    match initFileLine snip with
    | none => ("", some .assertionFailed)
    | some line =>
      let r := initLinesPartial rest
      (line ++ r.1, r.2)

/-- The fixed import header of `write_component_file`. -/
def componentHeader : String :=
  "from __future__ import annotations\n\nfrom dataclasses import KW_ONLY, field\nfrom typing import *  # type: ignore\n\nimport rio\n\nfrom .. import components as comps\n\n"

/-- The optional `additional-imports` block of `write_component_file`: the
section followed by one newline when present, nothing otherwise. -/
def componentAdditionalImports (snip : Snippet) : String :=
  match getSection snip "additional-imports" with
  | none => ""
  | some ai => ai ++ "\n"

/-- `write_component_file` from the source, as the full content written for a
component or page snippet; the propagated `KeyError` for a missing
`component` section becomes `Except.error (sectionNotFound "component")`. -/
def writeComponentFile (snip : Snippet) : Except SetupError String :=
  match getSection snip "component" with
  | none => .error (.sectionNotFound "component")
  | some body => .ok (componentHeader ++ componentAdditionalImports snip ++ body)

/-- What `write_component_file` has already written to the open file when the
`component` section turns out to be missing: the header and the optional
imports block. -/
def componentFilePartial (snip : Snippet) : String :=
  componentHeader ++ componentAdditionalImports snip

/-- `generate_dependencies_file` from the source, as the optional content of
`requirements.txt`: `none` when the dependency mapping is empty (no file is
created at all), otherwise one `package` + `version_specifier` line per
entry. -/
def generateDependenciesFile (dependencies : List (String × String)) : Option String :=
  if dependencies.isEmpty then none
  else some (String.join (dependencies.map (fun d => d.1 ++ d.2 ++ "\n")))

/-- The two project kinds accepted by `create_project`. -/
inductive ProjectType where
  | app
  | website
deriving DecidableEq

/-- The literal string of a project type. -/
def ProjectType.str : ProjectType → String
  | .app => "app"
  | .website => "website"

/-- The ASCII apostrophe, written by code point to keep source text plain. -/
def squote : Char := Char.ofNat 39

/-- Python `repr` for one character of a single-quoted string literal:
backslashes and single quotes are escaped. -/
def pyReprChar (c : Char) : List Char :=
  if c = '\\' then ['\\', '\\']
  else if c = squote then ['\\', squote]
  else [c]

/-- Python `repr(s)` for the strings interpolated by the generator (strings of
printable characters): a single-quoted literal with backslash escaping. -/
def pyRepr (s : String) : String :=
  ⟨squote :: s.data.foldr (fun c acc => pyReprChar c ++ acc) [squote]⟩

/-- Modelled from the spec (§3): `rio.snippets.ProjectTemplate`, the named
bundle the external catalog hands to `create_project`: metadata, dependency
mapping (as an insertion-ordered association list), the snippet sequences, the
root-init snippet and the optional `on_app_start` hook expression. -/
structure ProjectTemplate where
  name : String
  descriptionMarkdownSource : String
  dependencies : List (String × String)
  assetSnippets : List Snippet
  componentSnippets : List Snippet
  pageSnippets : List Snippet
  otherPythonFiles : List Snippet
  rootInitSnippet : Snippet
  onAppStart : Option String
deriving DecidableEq

/-- The URL segment chosen for a page inside `generate_root_init`: the empty
string for the main page, otherwise `snip.name[:-3].replace("_", "-").lower()`
guarded by the `".py"` assertion.  The source compares with `is` (object
identity); snippets here are compared by value, which coincides on page lists
whose snippets are pairwise distinct. -/
def urlSegmentFor (snip mainPage : Snippet) : Option String :=
  if snip = mainPage then some ""
  else if pyEndsWith snip.name ".py" then
    some ⟨((stemOfL snip.name.data).map underscoreToHyphen).map asciiLower⟩
  else none

/-- One entry of the `pages=[...]` list in the generated root init, rendered
exactly as the f-string in `generate_root_init`. -/
def renderPageEntry (urlSegment className : String) : String :=
  "\n        rio.Page(\n            page_url=" ++ pyRepr urlSegment
    ++ ",\n            build=pages." ++ className ++ ",\n        ),"

/-- The rendered entry for one page snippet: URL segment and derived class
name, `none` when a `".py"` assertion fails. -/
def pageEntry (mainPage snip : Snippet) : Option String :=
  match urlSegmentFor snip mainPage, classNameFromSnippet snip with
  | some u, some cls => some (renderPageEntry u cls)
  | _, _ => none

/-- The stripped module header written first by `generate_root_init`. -/
def rootInitHeader : String :=
  "from __future__ import annotations\n\nfrom pathlib import Path\nfrom typing import *  # type: ignore\n\nimport rio\n\nfrom . import pages\nfrom . import components as comps"

/-- An optional section block of the root init: a leading newline, the
section text and one blank line when the section exists, nothing otherwise. -/
def optSectionBlock (snip : Snippet) (sectionName : String) : String :=
  match getSection snip sectionName with
  | none => ""
  | some s => "\n" ++ s ++ "\n\n"

/-- The theme declaration and the opening of the `rio.App(...)` call, as the
left-stripped f-string in `generate_root_init`.  The two hex strings stand for
`rio.Theme.from_color()`'s default palette (`rio.Theme` is outside `src/`;
per §9 of the spec the default styling constants are treated as injected
values). -/
def themeAppStr (rawName primaryHex secondaryHex pageStr : String) : String :=
  "# Define a theme for Rio to use.\n#\n# You can modify the colors here to adapt the appearance of your app or website.\n# The most important parameters are listed, but more are available! You can find\n# them all in the docs TODO: Add link.\ntheme = rio.Theme.from_color(\n    primary_color=rio.Color.from_hex(\""
    ++ primaryHex
    ++ "\"),\n    secondary_color=rio.Color.from_hex(\""
    ++ secondaryHex
    ++ "\"),\n    light=True,\n)\n\n\n# Create the Rio app\napp = rio.App(\n    name="
    ++ pyRepr rawName
    ++ ",\n    pages=["
    ++ pageStr
    ++ "\n    ],\n"

/-- The optional `on_app_start` parameter of the generated `rio.App(...)`
call: emitted with its explanatory comment when a hook expression is supplied,
omitted entirely otherwise. -/
def onAppStartBlock : Option String → String
  | none => ""
  | some expr =>
    "    # This function will be called once the app is ready.\n    #\n    # `rio run` will also call it again each time the app is reloaded.\n    on_app_start="
      ++ expr ++ ",\n"

/-- The fixed closing of the generated `rio.App(...)` call. -/
def rootInitTail : String :=
  "    theme=theme,\n    assets_dir=Path(__file__).parent / \"assets\",\n)\n\n"

/-- `generate_root_init` from the source, as the full content of the root
package `__init__.py`: `none` models a failing assertion (empty page list, or
a page name without the `".py"` suffix).  `projectType` and `components` are
parameters of the source function that its body does not use. -/
def generateRootInit (rawName : String) (projectType : ProjectType)
    (components pages : List Snippet) (mainPage rootInitSnip : Snippet)
    (onAppStart : Option String) (primaryHex secondaryHex : String) : Option String :=
  if pages.isEmpty then none
  else
    match optionMapList (pageEntry mainPage) pages with
    | none => none
    | some entries =>
      some (rootInitHeader
        ++ optSectionBlock rootInitSnip "additional-imports"
        ++ optSectionBlock rootInitSnip "additional-code"
        ++ themeAppStr rawName primaryHex secondaryHex (String.intercalate "\n" entries)
        ++ onAppStartBlock onAppStart
        ++ rootInitTail)

/-- The content of the generated `rio.toml` configuration manifest. -/
def rioTomlContent (projectType : ProjectType) (moduleName : String) : String :=
  "# This is the configuration file for Rio,\n# an easy to use app & web framework for Python.\n\n[app]\napp_type = \""
    ++ projectType.str
    ++ "\"  # This is either \"website\" or \"app\"\nmain_module = \""
    ++ moduleName
    ++ "\"  # The name of your Python module\n"

/-- `generate_readme` from the source: title, placeholder description, and the
template's own description when the template is not the `Empty` one. -/
def generateReadme (rawName : String) (template : ProjectTemplate) : String :=
  "# " ++ rawName
    ++ "\n\nThis is a placeholder README for your project. Use it to describe what your\nproject is about, to give new users a quick overview of what they can expect.\n\n_"
    ++ pyCapitalize rawName
    ++ "_ was created using [Rio](http://rio.dev/), an easy to\nuse app & website framework for Python._\n"
    ++ (if template.name = "Empty" then ""
        else
          "\nThis project is based on the `" ++ template.name ++ "` template.\n\n## "
            ++ template.name ++ "\n\n" ++ template.descriptionMarkdownSource ++ "\n")

/-- The content of the generated `__main__.py` entry point (only written for
`app`-type projects). -/
def mainPyContent (moduleName : String) : String :=
  "\n# Make sure the project is in the Python path\nimport sys\nfrom pathlib import Path\nsys.path.insert(0, str(Path(__file__).parent.parent))\n\n\n# Import the main module\nimport "
    ++ moduleName
    ++ "\n\n# Run the app\n"
    ++ moduleName
    ++ ".app.run_in_window()\n"

/-- A filesystem state relative to the working directory: the set of existing
directories and the files with their contents, both keyed by component
paths. -/
structure FS where
  dirs : List (List String)
  files : List (List String × String)
deriving DecidableEq

/-- Is `q` an immediate child path of `parent` (that is, `parent` plus one
final component)? -/
def childOf : List String → List String → Bool
  | [], [_] => true
  | [], _ => false
  | _ :: _, [] => false
  | p :: ps, a :: as => decide (a = p) && childOf ps as

/-- Does `any(p.iterdir())` hold: does the directory `p` contain an immediate
child directory or file? -/
def dirNonEmpty (fs : FS) (p : List String) : Bool :=
  fs.dirs.any (childOf p) || fs.files.any (fun f => childOf p f.1)

/-- All nonempty prefixes of a path, shortest first (the directory and its
ancestors, as created by `mkdir(parents=True)`). -/
def initsNE (p : List String) : List (List String) :=
  (List.range p.length).map (fun i => p.take (i + 1))

/-- `p.mkdir(parents=True, exist_ok=True)`: creates the directory and any
missing ancestor; fails (`FileExistsError`) when a file occupies the path of
the directory or of an ancestor. -/
def mkdirParents (fs : FS) (p : List String) : Option FS :=
  if (initsNE p).any (fun q => fs.files.any (fun f => decide (f.1 = q))) then none
  else some { fs with dirs := fs.dirs ++ (initsNE p).filter (fun q => decide (¬ q ∈ fs.dirs)) }

/-- `p.mkdir()` without flags: fails when the path already exists as a
directory or file, or when the parent directory is missing. -/
def mkdirStrict (fs : FS) (p : List String) : Option FS :=
  if p ∈ fs.dirs then none
  else if fs.files.any (fun f => decide (f.1 = p)) then none
  else if 2 ≤ p.length ∧ ¬ p.dropLast ∈ fs.dirs then none
  else some { fs with dirs := fs.dirs ++ [p] }

/-- `open(p, "w")` followed by writing `content`: creates or truncates the
file at `p`. -/
def writeF (fs : FS) (p : List String) (content : String) : FS :=
  { fs with files := fs.files.filter (fun f => decide (¬ f.1 = p)) ++ [(p, content)] }

/-- The asset-copy loop of `create_project`: each asset snippet's origin file
bytes are copied unmodified into the assets directory under the origin file's
base name. -/
def copyAssets (fs : FS) (dir : List String) : List Snippet → FS
  | [] => fs
  | snip :: rest => copyAssets (writeF fs (dir ++ [snip.originFileName]) snip.fileContent) dir rest

/-- The component/page writing loops of `create_project`: one rendered file
per snippet; a missing `component` section aborts the run, leaving the partial
content of the failing file on disk. -/
def writeSnippetFiles (fs : FS) (dir : List String) : List Snippet → Option SetupError × FS
  | [] => (none, fs)
  | snip :: rest =>
    match writeComponentFile snip with
    | .error e => (some e, writeF fs (dir ++ [snip.name]) (componentFilePartial snip))
    | .ok content => writeSnippetFiles (writeF fs (dir ++ [snip.name]) content) dir rest

/-- The loop writing the template's whole-file snippets (`other_python_files`)
into the main module directory, using the stripped-code accessor. -/
def writeOtherFiles (fs : FS) (dir : List String) : List Snippet → FS
  | [] => fs
  | snip :: rest => writeOtherFiles (writeF fs (dir ++ [snip.name]) snip.strippedCode) dir rest

/-- The project directory path chosen by `create_project`: the derived module
name in kebab-case, directly under the working directory. -/
def projectDirOf (rawName : String) : List String := [deriveDirectoryName rawName]

/-- `create_project` from the source, as a state transformer over `FS`: the
pair of the failure condition (`none` on success) and the filesystem state at
the end of the run (partial output remains on failure, §7 of the spec).
The template object is taken as an argument: the catalog lookup loop is
external per §1, and its failure branch is an `assert False`, unreachable for
a resolved template.  The theme hex strings are the injected default palette
(see `themeAppStr`).  Terminal interaction (`revel`) is presentation and is
not modelled; `fatal` aborts the run with `directoryNotEmpty`. -/
def createProject (rawName : String) (projectType : ProjectType)
    (template : ProjectTemplate) (primaryHex secondaryHex : String)
    (fs0 : FS) : Option SetupError × FS :=
  let moduleName := deriveModuleName rawName
  let projectDir := projectDirOf rawName
  match mkdirParents fs0 projectDir with
  | none => (some .fileExists, fs0)
  | some fs1 =>
  if dirNonEmpty fs1 projectDir then (some .directoryNotEmpty, fs1)
  else
  let fs2 := writeF fs1 (projectDir ++ ["rio.toml"]) (rioTomlContent projectType moduleName)
  let mainModuleDir := projectDir ++ [moduleName]
  match mkdirParents fs2 mainModuleDir with
  | none => (some .fileExists, fs2)
  | some fs3 =>
  match mkdirStrict fs3 (mainModuleDir ++ ["assets"]) with
  | none => (some .fileExists, fs3)
  | some fs4 =>
  match mkdirStrict fs4 (mainModuleDir ++ ["components"]) with
  | none => (some .fileExists, fs4)
  | some fs5 =>
  match mkdirStrict fs5 (mainModuleDir ++ ["pages"]) with
  | none => (some .fileExists, fs5)
  | some fs6 =>
  let fs7 := copyAssets fs6 (mainModuleDir ++ ["assets"]) template.assetSnippets
  match writeSnippetFiles fs7 (mainModuleDir ++ ["components"]) template.componentSnippets with
  | (some e, fsErr) => (some e, fsErr)
  | (none, fs8) =>
  match writeSnippetFiles fs8 (mainModuleDir ++ ["pages"]) template.pageSnippets with
  | (some e, fsErr) => (some e, fsErr)
  | (none, fs9) =>
  let fs10 := writeOtherFiles fs9 mainModuleDir template.otherPythonFiles
  if template.pageSnippets.length > 1 then (some .unsupportedConfiguration, fs10)
  else
  match template.pageSnippets with
  | [] => (some .indexError, fs10)
  | mainPage :: _ =>
  match generateRootInit rawName projectType template.componentSnippets
      template.pageSnippets mainPage template.rootInitSnippet template.onAppStart
      primaryHex secondaryHex with
  | none => (some .assertionFailed, writeF fs10 (mainModuleDir ++ ["__init__.py"]) "")
  | some rootInit =>
  let fs11 := writeF fs10 (mainModuleDir ++ ["__init__.py"]) rootInit
  match initLinesPartial template.componentSnippets with
  | (content, some e) =>
    (some e, writeF fs11 (mainModuleDir ++ ["components", "__init__.py"]) content)
  | (content, none) =>
  let fs12 := writeF fs11 (mainModuleDir ++ ["components", "__init__.py"]) content
  match initLinesPartial template.pageSnippets with
  | (content2, some e) =>
    (some e, writeF fs12 (mainModuleDir ++ ["pages", "__init__.py"]) content2)
  | (content2, none) =>
  let fs13 := writeF fs12 (mainModuleDir ++ ["pages", "__init__.py"]) content2
  let fs14 :=
    match generateDependenciesFile template.dependencies with
    | none => fs13
    | some reqs => writeF fs13 (projectDir ++ ["requirements.txt"]) reqs
  let fs15 := writeF fs14 (projectDir ++ ["README.md"]) (generateReadme rawName template)
  let fs16 :=
    match projectType with
    | .app => writeF fs15 (mainModuleDir ++ ["__main__.py"]) (mainPyContent moduleName)
    | .website => fs15
  (none, fs16)

/-- Well-formedness of a filesystem state, as a real filesystem guarantees it:
every proper nonempty prefix of a directory path is itself a directory, and
the parent of every file of depth at least two is a directory. -/
def FS.WF (fs : FS) : Prop :=
  (∀ p ∈ fs.dirs, ∀ i ∈ List.range p.length, 0 < i → p.take i ∈ fs.dirs) ∧
  (∀ f ∈ fs.files, 2 ≤ f.1.length → f.1.dropLast ∈ fs.dirs)

instance (fs : FS) : Decidable fs.WF := by
  unfold FS.WF
  infer_instance

/-! ## Concrete objects used to evaluate the theorems at specific inputs -/

/-- A parsed section list with just a `component` section. -/
def sampleComponentSection : List (String × String) :=
  [("component", "class SamplePage(rio.Component):\n    pass\n")]

/-- A well-named page snippet. -/
def wPageOne : Snippet := ⟨"page_one.py", "page_one.py", "", sampleComponentSection, ""⟩

/-- A second well-named page snippet. -/
def wPageTwo : Snippet := ⟨"page_two.py", "page_two.py", "", sampleComponentSection, ""⟩

/-- A snippet whose name does not end in `".py"`. -/
def wBadSnip : Snippet := ⟨"noext", "noext", "", sampleComponentSection, ""⟩

/-- A root-init snippet with no sections. -/
def wRootSnip : Snippet := ⟨"__init__.py", "__init__.py", "", [], ""⟩

/-- A component snippet with both a `component` and an `additional-imports`
section. -/
def wCompSnip : Snippet :=
  ⟨"sample_component.py", "sample_component.py", "",
    [("component", "class C:\n    pass\n"), ("additional-imports", "import numpy")], ""⟩

/-- A snippet with no `component` section. -/
def wNoCompSnip : Snippet := ⟨"empty.py", "empty.py", "", [("additional-imports", "import os")], ""⟩

/-- A template with two page snippets. -/
def wTplTwoPages : ProjectTemplate :=
  ⟨"Tpl", "A template.", [], [], [], [wPageOne, wPageTwo], [], wRootSnip, none⟩

/-- A template with one page snippet. -/
def wTplOnePage : ProjectTemplate :=
  ⟨"Tpl", "A template.", [], [], [], [wPageOne], [], wRootSnip, none⟩

/-- The empty filesystem state (a fresh working directory). -/
def wEmptyFS : FS := ⟨[], []⟩

/-- A filesystem state in which the target directory for `"My App"` already
exists and is non-empty. -/
def wBusyFS : FS := ⟨[["my-app"]], [(["my-app", "junk.txt"], "existing")]⟩

/-- The root init generated for a one-page template without a start hook. -/
def wRootInitNoneOut : String :=
  (generateRootInit "A" .website [] [wPageOne] wPageOne wRootSnip none "c0ffee" "facade").getD ""

/-! ## Helper lemmas -/

theorem optionMapList_eq_some {α β : Type} (f : α → Option β) (l : List α)
    (h : ∀ a ∈ l, (f a).isSome = true) : ∃ bs, optionMapList f l = some bs := by
  induction l with
  | nil => exact ⟨[], rfl⟩
  | cons a rest ih =>
    obtain ⟨b, hb⟩ := Option.isSome_iff_exists.mp (h a (List.mem_cons_self a rest))
    obtain ⟨bs, hbs⟩ := ih (fun x hx => h x (List.mem_cons_of_mem a hx))
    exact ⟨b :: bs, by simp [optionMapList, hb, hbs]⟩

theorem isUp_asciiLower (c : Char) : isUp (asciiLower c) = false := by
  unfold asciiLower
  split
  · rename_i h
    have h1 : 97 ≤ c.toNat + 32 := by omega
    have h2 : c.toNat + 32 ≤ 122 := by omega
    generalize c.toNat + 32 = m at h1 h2
    interval_cases m <;> decide
  · rename_i h
    simp only [isUp, decide_eq_false_iff_not]
    omega

theorem snakeAux_no_upper (l : List Char) :
    ∀ prev, ∀ c ∈ snakeAux prev l, isUp c = false := by
  induction l with
  | nil => intro prev c hc; simp [snakeAux] at hc
  | cons a rest ih =>
    intro prev c hc
    unfold snakeAux at hc
    split at hc
    · rcases List.mem_cons.mp hc with h | h
      · subst h; decide
      · exact ih _ c h
    · split at hc
      · rcases List.mem_cons.mp hc with h | h
        · subst h; decide
        · rcases List.mem_cons.mp h with h2 | h2
          · subst h2; exact isUp_asciiLower a
          · exact ih _ c h2
      · rcases List.mem_cons.mp hc with h | h
        · subst h; exact isUp_asciiLower a
        · exact ih _ c h

/-- Every character of a derived module name is a lowercase ASCII letter, an
ASCII digit, or an underscore. -/
theorem deriveModuleNameL_chars (l : List Char) :
    ∀ c ∈ deriveModuleNameL l, (isLow c || isDig c || decide (c = '_')) = true := by
  intro c hc
  simp only [deriveModuleNameL] at hc
  split at hc
  · fin_cases hc <;> decide
  · have h3 : c ∈ stripInvalidFilenameChars (identFilter (convertCaseSnake l)) :=
      (List.dropWhile_sublist _).subset hc
    have h2 : c ∈ identFilter (convertCaseSnake l) := (List.mem_filter.mp h3).1
    have hpred : (isIdentChar c || isDig c) = true := (List.mem_filter.mp h2).2
    have h1 : c ∈ convertCaseSnake l := (List.mem_filter.mp h2).1
    have hup : isUp c = false := snakeAux_no_upper l none c h1
    simp only [isIdentChar, hup, Bool.false_or, Bool.or_eq_true,
      decide_eq_true_eq] at hpred ⊢
    tauto

theorem deriveModuleNameL_ne_nil (l : List Char) : deriveModuleNameL l ≠ [] := by
  simp only [deriveModuleNameL]
  split
  · decide
  · rename_i h
    simpa [List.isEmpty_iff] using h

theorem head_dropWhile_not (p : Char → Bool) (l : List Char) (c : Char)
    (h : (l.dropWhile p).head? = some c) : p c = false := by
  induction l with
  | nil => simp [List.dropWhile] at h
  | cons a rest ih =>
    rw [List.dropWhile_cons] at h
    split at h
    · exact ih h
    · rename_i hpa
      simp only [List.head?_cons, Option.some.injEq] at h
      subst h
      exact Bool.not_eq_true _ ▸ eq_false_of_ne_true hpa

theorem deriveModuleNameL_head (l : List Char) (c : Char)
    (h : (deriveModuleNameL l).head? = some c) : isDig c = false := by
  simp only [deriveModuleNameL] at h
  split at h
  · simp only [List.head?_cons, Option.some.injEq] at h
    subst h; decide
  · exact head_dropWhile_not _ _ _ h

theorem charOk_ne_hyphen (c : Char)
    (h : (isLow c || isDig c || decide (c = '_')) = true) : c ≠ '-' := by
  intro heq
  subst heq
  exact absurd h (by decide)

theorem h2u_u2h (c : Char) (h : c ≠ '-') :
    hyphenToUnderscore (underscoreToHyphen c) = c := by
  by_cases h1 : c = '_'
  · subst h1; decide
  · unfold underscoreToHyphen hyphenToUnderscore
    rw [if_neg h1, if_neg h]

theorem map_h2u_map_u2h (l : List Char) (h : ∀ c ∈ l, c ≠ '-') :
    (l.map underscoreToHyphen).map hyphenToUnderscore = l := by
  induction l with
  | nil => rfl
  | cons a rest ih =>
    simp only [List.map_cons, List.cons.injEq]
    exact ⟨h2u_u2h a (h a (List.mem_cons_self a rest)),
      ih (fun c hc => h c (List.mem_cons_of_mem a hc))⟩

theorem splitOnChar_not_mem (sep : Char) (l : List Char) (h : ¬ sep ∈ l) :
    splitOnChar sep l = [l] := by
  induction l with
  | nil => rfl
  | cons a rest ih =>
    have ha : ¬ a = sep := fun he => h (he ▸ List.mem_cons_self a rest)
    have hrest : ¬ sep ∈ rest := fun he => h (List.mem_cons_of_mem a he)
    unfold splitOnChar
    rw [if_neg ha, ih hrest]

/-! ## Claim theorems -/

/-- C3: for every input string, `derive_module_name` returns a non-empty
string containing only lowercase ASCII letters, digits, and underscores, not
starting with a digit; `"My Cool App!"` maps to `"my_cool_app"` and `"123"`
maps to the fixed fallback identifier `"rio_app"`, which is non-empty and not
purely digits. -/
theorem derive_module_name_valid_identifier :
    (∀ rawName : String,
      deriveModuleName rawName ≠ "" ∧
      (∀ c ∈ (deriveModuleName rawName).data, (isLow c || isDig c || decide (c = '_')) = true) ∧
      (∀ c, (deriveModuleName rawName).data.head? = some c → isDig c = false)) ∧
    deriveModuleName "My Cool App!" = "my_cool_app" ∧
    deriveModuleName "123" = "rio_app" ∧
    deriveModuleName "123" ≠ "" ∧
    (deriveModuleName "123").data.all isDig = false := by
  refine ⟨fun rawName => ⟨?_, ?_, ?_⟩, by decide, by decide, by decide, by decide⟩
  · intro h
    exact deriveModuleNameL_ne_nil rawName.data (congrArg String.data h)
  · exact deriveModuleNameL_chars rawName.data
  · exact deriveModuleNameL_head rawName.data

/-- Witness for C3 at concrete inputs. -/
theorem derive_module_name_valid_identifier_witness :
    deriveModuleName "Hello World" ≠ "" ∧
    (isLow 'h' || isDig 'h' || decide ('h' = '_')) = true ∧
    isDig 'h' = false := by
  refine ⟨(derive_module_name_valid_identifier.1 "Hello World").1, ?_, ?_⟩
  · exact (derive_module_name_valid_identifier.1 "Hello World").2.1 'h' (by decide)
  · exact (derive_module_name_valid_identifier.1 "Hello World").2.2 'h' (by decide)

/-- C5: class-name derivation splits the stem on underscores, applies Python
`capitalize` to each part and concatenates: `"sample_component"` yields
`"SampleComponent"`, a single-word stem yields that word capitalized, and the
derivation is a deterministic function of the stem. -/
theorem class_name_derivation_spec :
    classNameOfStem "sample_component" = "SampleComponent" ∧
    (∀ stem : String, ¬ '_' ∈ stem.data → classNameOfStem stem = pyCapitalize stem) ∧
    (∀ s t : String, s = t → classNameOfStem s = classNameOfStem t) ∧
    (∀ stem : String,
      classNameOfStem stem = ⟨joinL ((splitOnChar '_' stem.data).map pyCapitalizeL)⟩) := by
  refine ⟨by decide, ?_, fun s t h => h ▸ rfl, fun stem => rfl⟩
  intro stem h
  show (⟨classNameOfStemL stem.data⟩ : String) = ⟨pyCapitalizeL stem.data⟩
  rw [classNameOfStemL, splitOnChar_not_mem '_' stem.data h]
  simp [joinL]

/-- Witness for C5 at a concrete single-word stem. -/
theorem class_name_derivation_spec_witness :
    classNameOfStem "page" = pyCapitalize "page" ∧ classNameOfStem "a" = classNameOfStem "a" :=
  ⟨class_name_derivation_spec.2.1 "page" (by decide),
    class_name_derivation_spec.2.2.1 "a" "a" rfl⟩

/-- C6: the directory name is the exact underscore-to-hyphen transform of the
derived module name, and replacing every hyphen back with an underscore
reproduces the module name. -/
theorem derive_directory_name_roundtrip (rawName : String) :
    deriveDirectoryName rawName = ⟨(deriveModuleName rawName).data.map underscoreToHyphen⟩ ∧
    (⟨(deriveDirectoryName rawName).data.map hyphenToUnderscore⟩ : String) =
      deriveModuleName rawName := by
  refine ⟨rfl, ?_⟩
  show (⟨((deriveModuleNameL rawName.data).map underscoreToHyphen).map hyphenToUnderscore⟩ :
    String) = ⟨deriveModuleNameL rawName.data⟩
  exact congrArg (fun l => (⟨l⟩ : String))
    (map_h2u_map_u2h _ (fun c hc => charOk_ne_hyphen c (deriveModuleNameL_chars _ c hc)))

/-- C7: rendering a component or page file fails with `SectionNotFound`
exactly when the snippet's `component` section is missing; when present, the
output is the fixed import header, then the `additional-imports` section
followed by a newline if present, then the `component` section verbatim. -/
theorem write_component_file_spec (snip : Snippet) :
    (writeComponentFile snip = Except.error (SetupError.sectionNotFound "component") ↔
      getSection snip "component" = none) ∧
    (∀ body, getSection snip "component" = some body →
      writeComponentFile snip = Except.ok (componentHeader ++
        (match getSection snip "additional-imports" with
         | none => ""
         | some ai => ai ++ "\n") ++ body)) := by
  constructor
  · constructor
    · intro h
      cases hsec : getSection snip "component" with
      | none => rfl
      | some body => simp [writeComponentFile, hsec] at h
    · intro h
      simp [writeComponentFile, h]
  · intro body hb
    simp [writeComponentFile, hb, componentAdditionalImports]

/-- Witness for C7: a snippet with both sections renders fully, one without a
`component` section fails with `SectionNotFound`. -/
theorem write_component_file_spec_witness :
    writeComponentFile wCompSnip = Except.ok (componentHeader ++
      (match getSection wCompSnip "additional-imports" with
       | none => ""
       | some ai => ai ++ "\n") ++ "class C:\n    pass\n") ∧
    writeComponentFile wNoCompSnip = Except.error (SetupError.sectionNotFound "component") :=
  ⟨(write_component_file_spec wCompSnip).2 "class C:\n    pass\n" (by decide),
    (write_component_file_spec wNoCompSnip).1.mpr (by decide)⟩

/-- C8: the dependency-manifest generator produces no file at all for an
empty mapping, and otherwise one `package` + `version constraint` line per
entry, newline-terminated; `[("numpy", ">=1.0")]` produces the single line
`numpy>=1.0`. -/
theorem generate_dependencies_file_spec :
    (∀ dependencies : List (String × String),
      (dependencies = [] → generateDependenciesFile dependencies = none) ∧
      (dependencies ≠ [] → generateDependenciesFile dependencies =
        some (String.join (dependencies.map (fun d => d.1 ++ d.2 ++ "\n"))))) ∧
    generateDependenciesFile [("numpy", ">=1.0")] = some "numpy>=1.0\n" := by
  refine ⟨fun dependencies => ⟨fun h => by simp [generateDependenciesFile, h], fun h => ?_⟩,
    by decide⟩
  simp [generateDependenciesFile, List.isEmpty_iff, h]

/-- Witness for C8 at the two concrete mappings. -/
theorem generate_dependencies_file_spec_witness :
    generateDependenciesFile [] = none ∧
    generateDependenciesFile [("numpy", ">=1.0")] =
      some (String.join ([("numpy", ">=1.0")].map (fun d => d.1 ++ d.2 ++ "\n"))) :=
  ⟨(generate_dependencies_file_spec.1 []).1 rfl,
    (generate_dependencies_file_spec.1 [("numpy", ">=1.0")]).2 (by decide)⟩

/-- C10: class-name derivation, barrel-file line generation and URL-segment
derivation all assert that the snippet name ends in `".py"`: without the
suffix each fails its assertion instead of producing output, and under the
precondition that all names carry the suffix no assertion fires and the stem
is the name with its last three characters removed. -/
theorem snippet_name_suffix_assertions :
    (∀ snip : Snippet, pyEndsWith snip.name ".py" = false →
      classNameFromSnippet snip = none ∧
      initFileLine snip = none ∧
      (∀ mainPage, snip ≠ mainPage → urlSegmentFor snip mainPage = none) ∧
      (∀ mainPage, pageEntry mainPage snip = none)) ∧
    (∀ snip : Snippet, pyEndsWith snip.name ".py" = true →
      classNameFromSnippet snip =
        some (classNameOfStem ⟨snip.name.data.take (snip.name.data.length - 3)⟩) ∧
      initFileLine snip =
        some ("from ." ++ (⟨snip.name.data.take (snip.name.data.length - 3)⟩ : String)
          ++ " import "
          ++ classNameOfStem ⟨snip.name.data.take (snip.name.data.length - 3)⟩ ++ "\n")) ∧
    (∀ snippets : List Snippet, (∀ s ∈ snippets, pyEndsWith s.name ".py" = true) →
      ∃ content, writeInitFile snippets = some content) := by
  refine ⟨fun snip h => ⟨?_, ?_, ?_, ?_⟩, fun snip h => ⟨?_, ?_⟩, fun snippets h => ?_⟩
  · simp [classNameFromSnippet, h]
  · simp [initFileLine, h]
  · intro mainPage hne
    simp [urlSegmentFor, hne, h]
  · intro mainPage
    cases hu : urlSegmentFor snip mainPage <;>
      simp [pageEntry, hu, classNameFromSnippet, h]
  · simp [classNameFromSnippet, h]
    rfl
  · simp [initFileLine, classNameFromSnippet, h]
    rfl
  · obtain ⟨lines, hl⟩ := optionMapList_eq_some initFileLine snippets
      (fun s hs => by simp [initFileLine, classNameFromSnippet, h s hs])
    exact ⟨String.join lines, by simp [writeInitFile, hl]⟩

/-- Witness for C10: the assertion fires for a suffix-less name and the
generators succeed on properly named snippets. -/
theorem snippet_name_suffix_assertions_witness :
    classNameFromSnippet wBadSnip = none ∧
    classNameFromSnippet wPageOne =
      some (classNameOfStem ⟨wPageOne.name.data.take (wPageOne.name.data.length - 3)⟩) ∧
    (∃ content, writeInitFile [wPageOne, wPageTwo] = some content) :=
  ⟨(snippet_name_suffix_assertions.1 wBadSnip (by decide)).1,
    (snippet_name_suffix_assertions.2.1 wPageOne (by decide)).1,
    snippet_name_suffix_assertions.2.2 [wPageOne, wPageTwo] (by decide)⟩

/-- C4: in a successfully generated root package init, the main page's entry
in the application declaration gets the empty-string URL segment, and every
other page's segment is its file stem with underscores replaced by hyphens,
lowercased. -/
theorem generate_root_init_url_segments (rawName : String) (pt : ProjectType)
    (comps pages : List Snippet) (mainPage rootSnip : Snippet) (oas : Option String)
    (ph sh : String)
    (hmem : mainPage ∈ pages)
    (hpy : ∀ p ∈ pages, pyEndsWith p.name ".py" = true) :
    (∃ out, generateRootInit rawName pt comps pages mainPage rootSnip oas ph sh = some out) ∧
    pageEntry mainPage mainPage =
      some (renderPageEntry "" (classNameOfStem (stemOf mainPage.name))) ∧
    (∀ p ∈ pages, p ≠ mainPage →
      pageEntry mainPage p =
        some (renderPageEntry
          ⟨((stemOfL p.name.data).map underscoreToHyphen).map asciiLower⟩
          (classNameOfStem (stemOf p.name)))) := by
  have hpe : ∀ p ∈ pages, (pageEntry mainPage p).isSome = true := by
    intro p hp
    by_cases he : p = mainPage
    · subst he
      simp [pageEntry, urlSegmentFor, classNameFromSnippet, hpy p hp]
    · simp [pageEntry, urlSegmentFor, he, classNameFromSnippet, hpy p hp]
  refine ⟨?_, ?_, ?_⟩
  · obtain ⟨entries, hent⟩ := optionMapList_eq_some _ _ hpe
    have hne : pages.isEmpty = false := by
      cases pages with
      | nil => exact absurd hmem (by simp)
      | cons a l => rfl
    refine ⟨rootInitHeader ++ optSectionBlock rootSnip "additional-imports"
      ++ optSectionBlock rootSnip "additional-code"
      ++ themeAppStr rawName ph sh (String.intercalate "\n" entries)
      ++ onAppStartBlock oas ++ rootInitTail, ?_⟩
    simp [generateRootInit, hne, hent]
  · simp [pageEntry, urlSegmentFor, classNameFromSnippet, hpy mainPage hmem]
  · intro p hp hne
    simp [pageEntry, urlSegmentFor, hne, classNameFromSnippet, hpy p hp]

/-- Witness for C4: a two-page list with the first page designated as main. -/
theorem generate_root_init_url_segments_witness :
    (∃ out, generateRootInit "My App" ProjectType.website [] [wPageOne, wPageTwo] wPageOne
      wRootSnip none "c0ffee" "facade" = some out) ∧
    pageEntry wPageOne wPageOne =
      some (renderPageEntry "" (classNameOfStem (stemOf wPageOne.name))) ∧
    (∀ p ∈ [wPageOne, wPageTwo], p ≠ wPageOne →
      pageEntry wPageOne p =
        some (renderPageEntry
          ⟨((stemOfL p.name.data).map underscoreToHyphen).map asciiLower⟩
          (classNameOfStem (stemOf p.name)))) :=
  generate_root_init_url_segments "My App" ProjectType.website [] [wPageOne, wPageTwo]
    wPageOne wRootSnip none "c0ffee" "facade" (by decide) (by decide)

/-- C9: when a start-hook expression is supplied, the generated root init
emits it as the `on_app_start` parameter together with its explanatory
comment, inserted before the fixed closing parameters; when no hook is
supplied, the parameter is omitted entirely and the output is exactly the
same text without that block. -/
theorem root_init_on_app_start (rawName : String) (pt : ProjectType)
    (comps pages : List Snippet) (mainPage rootSnip : Snippet)
    (ph sh : String) (outNone : String)
    (h : generateRootInit rawName pt comps pages mainPage rootSnip none ph sh = some outNone) :
    ∃ pre, outNone = pre ++ rootInitTail ∧
      (∀ expr, generateRootInit rawName pt comps pages mainPage rootSnip (some expr) ph sh =
        some (pre
          ++ ("    # This function will be called once the app is ready.\n    #\n    # `rio run` will also call it again each time the app is reloaded.\n    on_app_start="
            ++ expr ++ ",\n")
          ++ rootInitTail)) := by
  unfold generateRootInit at h
  by_cases hpe : pages.isEmpty = true
  · rw [if_pos hpe] at h
    exact absurd h (by simp)
  · rw [if_neg hpe] at h
    cases hmap : optionMapList (pageEntry mainPage) pages with
    | none => rw [hmap] at h; exact absurd h (by simp)
    | some entries =>
      rw [hmap] at h
      simp only [Option.some.injEq] at h
      refine ⟨rootInitHeader ++ optSectionBlock rootSnip "additional-imports"
        ++ optSectionBlock rootSnip "additional-code"
        ++ themeAppStr rawName ph sh (String.intercalate "\n" entries), ?_, ?_⟩
      · rw [← h]
        show rootInitHeader ++ _ ++ _ ++ _ ++ onAppStartBlock none ++ rootInitTail = _
        rw [show onAppStartBlock none = "" from rfl, String.append_empty]
      · intro expr
        unfold generateRootInit
        rw [if_neg hpe, hmap]
        rfl

set_option maxRecDepth 16384 in
/-- Witness for C9 at a concrete one-page template. -/
theorem root_init_on_app_start_witness :
    ∃ pre, wRootInitNoneOut = pre ++ rootInitTail ∧
      (∀ expr, generateRootInit "A" ProjectType.website [] [wPageOne] wPageOne wRootSnip
        (some expr) "c0ffee" "facade" =
        some (pre
          ++ ("    # This function will be called once the app is ready.\n    #\n    # `rio run` will also call it again each time the app is reloaded.\n    on_app_start="
            ++ expr ++ ",\n")
          ++ rootInitTail)) :=
  root_init_on_app_start "A" ProjectType.website [] [wPageOne] wPageOne wRootSnip
    "c0ffee" "facade" wRootInitNoneOut (by decide)

/-! ## Filesystem lemmas for the `create_project` theorems -/

theorem files_any_eq_false (fls : List (List String × String)) (q : List String)
    (h : ∀ f ∈ fls, f.1 ≠ q) : (fls.any fun f => decide (f.1 = q)) = false := by
  rw [List.any_eq_false]
  intro f hf
  simpa using h f hf

theorem childOf_child (d m : String) : childOf [d] [d, m] = true := by
  simp [childOf]

theorem dirNonEmpty_eq_false_parts (fs : FS) (pd : List String)
    (h : dirNonEmpty fs pd = false) :
    (∀ q ∈ fs.dirs, childOf pd q = false) ∧ (∀ f ∈ fs.files, childOf pd f.1 = false) := by
  unfold dirNonEmpty at h
  rw [Bool.or_eq_false_iff] at h
  obtain ⟨h1, h2⟩ := h
  rw [List.any_eq_false] at h1 h2
  exact ⟨fun q hq => eq_false_of_ne_true (h1 q hq), fun f hf => eq_false_of_ne_true (h2 f hf)⟩

theorem mkdirParents_eq_some (fs : FS) (p : List String)
    (h : ∀ q ∈ initsNE p, ∀ f ∈ fs.files, f.1 ≠ q) :
    mkdirParents fs p =
      some ⟨fs.dirs ++ (initsNE p).filter (fun q => decide (¬ q ∈ fs.dirs)), fs.files⟩ := by
  have hcond : ((initsNE p).any fun q => fs.files.any fun f => decide (f.1 = q)) = false := by
    rw [List.any_eq_false]
    intro q hq
    simp [files_any_eq_false fs.files q (h q hq)]
  unfold mkdirParents
  rw [hcond]
  rfl

theorem mkdirStrict_eq_some (fs : FS) (p : List String)
    (h1 : ¬ p ∈ fs.dirs) (h2 : ∀ f ∈ fs.files, f.1 ≠ p)
    (h3 : p.dropLast ∈ fs.dirs ∨ p.length ≤ 1) :
    mkdirStrict fs p = some ⟨fs.dirs ++ [p], fs.files⟩ := by
  have h4 : ¬ (2 ≤ p.length ∧ ¬ p.dropLast ∈ fs.dirs) := by
    rintro ⟨hlen, hpar⟩
    rcases h3 with h3 | h3
    · exact hpar h3
    · omega
  unfold mkdirStrict
  rw [if_neg h1, files_any_eq_false fs.files p h2, if_neg h4]
  rfl

theorem writeF_dirs (fs : FS) (p : List String) (c : String) :
    (writeF fs p c).dirs = fs.dirs := rfl

theorem writeF_files_ne_nil (fs : FS) (p : List String) (c : String) :
    (writeF fs p c).files ≠ [] := by
  simp [writeF]

theorem copyAssets_dirs (dir : List String) (l : List Snippet) :
    ∀ fs : FS, (copyAssets fs dir l).dirs = fs.dirs := by
  induction l with
  | nil => intro fs; rfl
  | cons s rest ih => intro fs; exact (ih (writeF fs (dir ++ [s.originFileName]) s.fileContent)).trans rfl

theorem copyAssets_files_ne_nil (dir : List String) (l : List Snippet) :
    ∀ fs : FS, fs.files ≠ [] → (copyAssets fs dir l).files ≠ [] := by
  induction l with
  | nil => intro fs h; exact h
  | cons s rest ih =>
    intro fs h
    exact ih (writeF fs (dir ++ [s.originFileName]) s.fileContent) (writeF_files_ne_nil fs _ _)

theorem writeOtherFiles_dirs (dir : List String) (l : List Snippet) :
    ∀ fs : FS, (writeOtherFiles fs dir l).dirs = fs.dirs := by
  induction l with
  | nil => intro fs; rfl
  | cons s rest ih => intro fs; exact (ih (writeF fs (dir ++ [s.name]) s.strippedCode)).trans rfl

theorem writeOtherFiles_files_ne_nil (dir : List String) (l : List Snippet) :
    ∀ fs : FS, fs.files ≠ [] → (writeOtherFiles fs dir l).files ≠ [] := by
  induction l with
  | nil => intro fs h; exact h
  | cons s rest ih =>
    intro fs h
    exact ih (writeF fs (dir ++ [s.name]) s.strippedCode) (writeF_files_ne_nil fs _ _)

theorem writeSnippetFiles_ok (dir : List String) (l : List Snippet)
    (h : ∀ s ∈ l, getSection s "component" ≠ none) :
    ∀ fs : FS, ∃ fs', writeSnippetFiles fs dir l = (none, fs') ∧
      fs'.dirs = fs.dirs ∧ (fs.files ≠ [] → fs'.files ≠ []) := by
  induction l with
  | nil => intro fs; exact ⟨fs, rfl, rfl, fun hf => hf⟩
  | cons s rest ih =>
    intro fs
    obtain ⟨body, hbody⟩ := Option.ne_none_iff_exists'.mp (h s (List.mem_cons_self s rest))
    obtain ⟨fs', hfs', hdirs, hfiles⟩ :=
      ih (fun x hx => h x (List.mem_cons_of_mem s hx))
        (writeF fs (dir ++ [s.name]) (componentHeader ++ componentAdditionalImports s ++ body))
    refine ⟨fs', ?_, hdirs.trans rfl, fun _ => hfiles (writeF_files_ne_nil fs _ _)⟩
    unfold writeSnippetFiles
    rw [show writeComponentFile s = Except.ok
      (componentHeader ++ componentAdditionalImports s ++ body) from by
        simp [writeComponentFile, hbody]]
    exact hfs'

theorem dirNonEmpty_extend (fs : FS) (pd : List String) (added : List (List String))
    (h : dirNonEmpty fs pd = false)
    (hadd : ∀ q ∈ added, childOf pd q = false) :
    dirNonEmpty ⟨fs.dirs ++ added, fs.files⟩ pd = false := by
  obtain ⟨h1, h2⟩ := dirNonEmpty_eq_false_parts fs pd h
  unfold dirNonEmpty
  rw [Bool.or_eq_false_iff]
  refine ⟨?_, ?_⟩
  · rw [List.any_eq_false]
    intro q hq
    rcases List.mem_append.mp hq with hq | hq
    · simp [h1 q hq]
    · simp [hadd q hq]
  · rw [List.any_eq_false]
    intro f hf
    simp [h2 f hf]

theorem writeF_files_mem (g : FS) (p : List String) (c : String) :
    ∀ f ∈ (writeF g p c).files, f ∈ g.files ∨ f.1 = p := by
  intro f hf
  simp only [writeF] at hf
  rcases List.mem_append.mp hf with hf | hf
  · exact Or.inl (List.mem_filter.mp hf).1
  · rw [List.mem_singleton] at hf
    exact Or.inr (by rw [hf])

theorem mkdirParents_some_inv (fs : FS) (p : List String) (fs' : FS)
    (h : mkdirParents fs p = some fs') :
    fs'.files = fs.files ∧
    (∀ q ∈ fs'.dirs, q ∈ fs.dirs ∨ q ∈ initsNE p) ∧
    (∀ q ∈ initsNE p, q ∈ fs'.dirs) ∧
    (∀ q ∈ fs.dirs, q ∈ fs'.dirs) := by
  unfold mkdirParents at h
  split at h
  · exact absurd h (by simp)
  · rw [Option.some.injEq] at h
    subst h
    refine ⟨rfl, ?_, ?_, ?_⟩
    · intro q hq
      rcases List.mem_append.mp hq with hq | hq
      · exact Or.inl hq
      · exact Or.inr (List.mem_filter.mp hq).1
    · intro q hq
      by_cases h2 : q ∈ fs.dirs
      · exact List.mem_append_left _ h2
      · exact List.mem_append_right _ (List.mem_filter.mpr ⟨hq, by simpa using h2⟩)
    · intro q hq
      exact List.mem_append_left _ hq

theorem mkdirParents_none_inv (fs : FS) (p : List String)
    (h : mkdirParents fs p = none) :
    ∃ q ∈ initsNE p, ∃ f ∈ fs.files, f.1 = q := by
  unfold mkdirParents at h
  split at h
  · rename_i hc
    rw [List.any_eq_true] at hc
    obtain ⟨q, hq, hany⟩ := hc
    rw [List.any_eq_true] at hany
    obtain ⟨f, hf, heq⟩ := hany
    exact ⟨q, hq, f, hf, of_decide_eq_true heq⟩
  · exact absurd h (by simp)

theorem mkdirStrict_some_inv (fs : FS) (p : List String) (fs' : FS)
    (h : mkdirStrict fs p = some fs') :
    fs'.dirs = fs.dirs ++ [p] ∧ fs'.files = fs.files := by
  unfold mkdirStrict at h
  split at h
  · exact absurd h (by simp)
  · split at h
    · exact absurd h (by simp)
    · split at h
      · exact absurd h (by simp)
      · rw [Option.some.injEq] at h
        subst h
        exact ⟨rfl, rfl⟩

theorem mkdirStrict_none_inv (fs : FS) (p : List String)
    (h : mkdirStrict fs p = none) :
    p ∈ fs.dirs ∨ (∃ f ∈ fs.files, f.1 = p) ∨ (2 ≤ p.length ∧ ¬ p.dropLast ∈ fs.dirs) := by
  unfold mkdirStrict at h
  split at h
  · rename_i hc
    exact Or.inl hc
  · split at h
    · rename_i hc
      rw [List.any_eq_true] at hc
      obtain ⟨f, hf, heq⟩ := hc
      exact Or.inr (Or.inl ⟨f, hf, of_decide_eq_true heq⟩)
    · split at h
      · rename_i hc
        exact Or.inr (Or.inr hc)
      · exact absurd h (by simp)

theorem dirNonEmpty_eq_true_parts (fs : FS) (pd : List String)
    (h : dirNonEmpty fs pd = true) :
    (∃ q ∈ fs.dirs, childOf pd q = true) ∨ ∃ f ∈ fs.files, childOf pd f.1 = true := by
  unfold dirNonEmpty at h
  rw [Bool.or_eq_true] at h
  rcases h with h | h
  · rw [List.any_eq_true] at h
    exact Or.inl h
  · rw [List.any_eq_true] at h
    exact Or.inr h

theorem writeSnippetFiles_fst (l : List Snippet)
    (h : ∀ s ∈ l, getSection s "component" ≠ none) (fs : FS) (dir : List String) :
    (writeSnippetFiles fs dir l).1 = none := by
  obtain ⟨fs', heq, -, -⟩ := writeSnippetFiles_ok dir l h fs
  rw [heq]

theorem writeSnippetFiles_res_dirs (l : List Snippet)
    (h : ∀ s ∈ l, getSection s "component" ≠ none) (fs : FS) (dir : List String) :
    (writeSnippetFiles fs dir l).2.dirs = fs.dirs := by
  obtain ⟨fs', heq, hd, -⟩ := writeSnippetFiles_ok dir l h fs
  rw [heq]
  exact hd

theorem writeSnippetFiles_res_files (l : List Snippet)
    (h : ∀ s ∈ l, getSection s "component" ≠ none) (fs : FS) (dir : List String)
    (hf : fs.files ≠ []) : (writeSnippetFiles fs dir l).2.files ≠ [] := by
  obtain ⟨fs', heq, -, hfi⟩ := writeSnippetFiles_ok dir l h fs
  rw [heq]
  exact hfi hf

theorem mkdirParents_single_existing (fs : FS) (d : String)
    (hdir : [d] ∈ fs.dirs) (hnofile : ∀ f ∈ fs.files, f.1 ≠ [d]) :
    mkdirParents fs [d] = some fs := by
  have hq : ∀ q ∈ initsNE [d], ∀ f ∈ fs.files, f.1 ≠ q := by
    intro q hq f hf
    rw [show initsNE [d] = [[d]] from rfl] at hq
    rw [List.mem_singleton] at hq
    subst hq
    exact hnofile f hf
  rw [mkdirParents_eq_some fs [d] hq]
  have hfilt : (initsNE [d]).filter (fun q => decide (¬ q ∈ fs.dirs)) = [] := by
    show [[d]].filter _ = []
    simp [hdir]
  rw [hfilt, List.append_nil]

/-- C2: when the target project directory already exists and is non-empty,
project creation fails with `DirectoryNotEmpty`, no file is written and the
filesystem state — in particular the directory's contents — is exactly the
input state; repeating the attempt fails the same way. -/
theorem create_project_nonempty_target (rawName : String) (pt : ProjectType)
    (template : ProjectTemplate) (ph sh : String) (fs : FS)
    (hdir : projectDirOf rawName ∈ fs.dirs)
    (hnofile : ∀ f ∈ fs.files, f.1 ≠ projectDirOf rawName)
    (hne : dirNonEmpty fs (projectDirOf rawName) = true) :
    createProject rawName pt template ph sh fs = (some SetupError.directoryNotEmpty, fs) ∧
    createProject rawName pt template ph sh
        (createProject rawName pt template ph sh fs).2 =
      (some SetupError.directoryNotEmpty, fs) := by
  have h1 : mkdirParents fs (projectDirOf rawName) = some fs :=
    mkdirParents_single_existing fs (deriveDirectoryName rawName) hdir hnofile
  have hmain : createProject rawName pt template ph sh fs =
      (some SetupError.directoryNotEmpty, fs) := by
    simp [createProject, h1, hne]
  exact ⟨hmain, by rw [hmain]; exact hmain⟩

/-- Witness for C2: the target `my-app` for raw name `"My App"` exists with a
junk file in it; both the first and the repeated attempt fail identically. -/
theorem create_project_nonempty_target_witness :
    createProject "My App" ProjectType.website wTplOnePage "c0ffee" "facade" wBusyFS =
      (some SetupError.directoryNotEmpty, wBusyFS) ∧
    createProject "My App" ProjectType.website wTplOnePage "c0ffee" "facade"
        (createProject "My App" ProjectType.website wTplOnePage "c0ffee" "facade" wBusyFS).2 =
      (some SetupError.directoryNotEmpty, wBusyFS) :=
  create_project_nonempty_target "My App" ProjectType.website wTplOnePage "c0ffee" "facade"
    wBusyFS (by decide) (by decide) (by decide)

/-- C1 (amended): when the target directory is absent or empty in a
well-formed filesystem and every component/page snippet has a `component`
section, a template with more than one page snippet makes project creation
fail with the unsupported-configuration condition — but only after the
directory layout and the per-snippet files have been created: at the moment
of failure the project directory exists and generated files are on disk. -/
theorem create_project_multi_page_after_dirs (rawName : String) (pt : ProjectType)
    (template : ProjectTemplate) (ph sh : String) (fs : FS)
    (hwf : fs.WF)
    (hne0 : dirNonEmpty fs (projectDirOf rawName) = false)
    (hnofile0 : ∀ f ∈ fs.files, f.1 ≠ projectDirOf rawName)
    (hpages : 1 < template.pageSnippets.length)
    (hsec : ∀ s ∈ template.componentSnippets ++ template.pageSnippets,
      getSection s "component" ≠ none) :
    (createProject rawName pt template ph sh fs).1 = some SetupError.unsupportedConfiguration ∧
    projectDirOf rawName ∈ (createProject rawName pt template ph sh fs).2.dirs ∧
    (createProject rawName pt template ph sh fs).2.files ≠ [] := by
  have hne : dirNonEmpty fs [deriveDirectoryName rawName] = false := hne0
  have hnofile : ∀ f ∈ fs.files, f.1 ≠ [deriveDirectoryName rawName] := hnofile0
  obtain ⟨hwfd, hwff⟩ := hwf
  obtain ⟨hnd, hnf⟩ := dirNonEmpty_eq_false_parts fs _ hne
  -- No subpath of the target directory exists yet, in dirs or files.
  have hF1 : ∀ x : String, ¬ [deriveDirectoryName rawName, x] ∈ fs.dirs := by
    intro x hmem
    have h := hnd _ hmem
    rw [childOf_child] at h
    simp at h
  have hF2 : ∀ x y : String, ¬ [deriveDirectoryName rawName, x, y] ∈ fs.dirs := by
    intro x y hmem
    have h := hwfd _ hmem 2 (by simp) (by simp)
    exact hF1 x h
  have hF3 : ∀ f ∈ fs.files, ∀ x y : String, f.1 ≠ [deriveDirectoryName rawName, x, y] := by
    intro f hf x y heq
    have h := hwff f hf (by rw [heq]; simp)
    rw [heq] at h
    exact hF1 x h
  have hF4 : ∀ f ∈ fs.files, ∀ x : String, f.1 ≠ [deriveDirectoryName rawName, x] := by
    intro f hf x heq
    have h := hnf f hf
    rw [heq, childOf_child] at h
    simp at h
  have hF5 : deriveModuleName rawName ≠ "rio.toml" := by
    intro hm
    have h1 : '.' ∈ deriveModuleNameL rawName.data := by
      have h2 : deriveModuleNameL rawName.data = "rio.toml".data := congrArg String.data hm
      rw [h2]; decide
    exact absurd (deriveModuleNameL_chars rawName.data '.' h1) (by decide)
  -- Step 1: creating the project directory.
  have hq0 : ∀ q ∈ initsNE [deriveDirectoryName rawName], ∀ f ∈ fs.files, f.1 ≠ q := by
    intro q hq f hf
    rw [show initsNE [deriveDirectoryName rawName] = [[deriveDirectoryName rawName]] from rfl,
      List.mem_singleton] at hq
    subst hq
    exact hnofile f hf
  have hsecC : ∀ s ∈ template.componentSnippets, getSection s "component" ≠ none :=
    fun s hs => hsec s (List.mem_append_left _ hs)
  have hsecP : ∀ s ∈ template.pageSnippets, getSection s "component" ≠ none :=
    fun s hs => hsec s (List.mem_append_right _ hs)
  have hrun : ∀ r : Option SetupError × FS, createProject rawName pt template ph sh fs = r →
      r.1 = some SetupError.unsupportedConfiguration ∧
      [deriveDirectoryName rawName] ∈ r.2.dirs ∧ r.2.files ≠ [] := by
    intro r hr
    simp only [createProject, projectDirOf, List.cons_append, List.nil_append] at hr
    split at hr
    · rename_i heq
      obtain ⟨q, hq, f, hf, heqf⟩ := mkdirParents_none_inv _ _ heq
      exact absurd heqf (hq0 q hq f hf)
    · rename_i fs1 heq1
      obtain ⟨hf1, hd1, hi1, ho1⟩ := mkdirParents_some_inv _ _ _ heq1
      split at hr
      · rename_i hcond
        rcases dirNonEmpty_eq_true_parts _ _ hcond with ⟨q, hq, hch⟩ | ⟨f, hf, hch⟩
        · rcases hd1 q hq with hq' | hq'
          · rw [hnd q hq'] at hch
            simp at hch
          · rw [show initsNE [deriveDirectoryName rawName] = [[deriveDirectoryName rawName]]
              from rfl, List.mem_singleton] at hq'
            subst hq'
            simp [childOf] at hch
        · rw [hf1] at hf
          rw [hnf f hf] at hch
          simp at hch
      · rename_i hcond
        have hWf : ∀ f ∈ (writeF fs1 [deriveDirectoryName rawName, "rio.toml"]
            (rioTomlContent pt (deriveModuleName rawName))).files,
            f ∈ fs.files ∨ f.1 = [deriveDirectoryName rawName, "rio.toml"] := by
          intro f hf
          rcases writeF_files_mem _ _ _ f hf with hf' | hf'
          · exact Or.inl (hf1 ▸ hf')
          · exact Or.inr hf'
        split at hr
        · rename_i heq2
          obtain ⟨q, hq, f, hf, heqf⟩ := mkdirParents_none_inv _ _ heq2
          rw [show initsNE [deriveDirectoryName rawName, deriveModuleName rawName] =
            [[deriveDirectoryName rawName],
              [deriveDirectoryName rawName, deriveModuleName rawName]] from rfl] at hq
          rcases hWf f hf with hf' | hf'
          · rcases List.mem_cons.mp hq with h | h
            · subst h
              exact (hnofile f hf' heqf).elim
            · rw [List.mem_singleton] at h
              subst h
              exact (hF4 f hf' _ heqf).elim
          · rcases List.mem_cons.mp hq with h | h
            · subst h
              rw [hf'] at heqf
              simp at heqf
            · rw [List.mem_singleton] at h
              subst h
              rw [hf'] at heqf
              simp only [List.cons.injEq, and_true] at heqf
              exact (hF5 heqf.2.symm).elim
        · rename_i fs3 heq3
          obtain ⟨hf3, hd3, hi3, ho3⟩ := mkdirParents_some_inv _ _ _ heq3
          have hd3' : ∀ q ∈ fs3.dirs, q ∈ fs.dirs ∨ q = [deriveDirectoryName rawName] ∨
              q = [deriveDirectoryName rawName, deriveModuleName rawName] := by
            intro q hq
            rcases hd3 q hq with hq' | hq'
            · rcases hd1 q hq' with hq'' | hq''
              · exact Or.inl hq''
              · rw [show initsNE [deriveDirectoryName rawName] = [[deriveDirectoryName rawName]]
                  from rfl, List.mem_singleton] at hq''
                exact Or.inr (Or.inl hq'')
            · rw [show initsNE [deriveDirectoryName rawName, deriveModuleName rawName] =
                [[deriveDirectoryName rawName],
                  [deriveDirectoryName rawName, deriveModuleName rawName]] from rfl] at hq'
              rcases List.mem_cons.mp hq' with h | h
              · exact Or.inr (Or.inl h)
              · rw [List.mem_singleton] at h
                exact Or.inr (Or.inr h)
          have hpd3 : [deriveDirectoryName rawName] ∈ fs3.dirs := by
            apply ho3
            apply hi1
            rw [show initsNE [deriveDirectoryName rawName] = [[deriveDirectoryName rawName]]
              from rfl]
            exact List.mem_singleton.mpr rfl
          have hmm3 : [deriveDirectoryName rawName, deriveModuleName rawName] ∈ fs3.dirs := by
            apply hi3
            rw [show initsNE [deriveDirectoryName rawName, deriveModuleName rawName] =
              [[deriveDirectoryName rawName],
                [deriveDirectoryName rawName, deriveModuleName rawName]] from rfl]
            exact List.mem_cons_of_mem _ (List.mem_singleton.mpr rfl)
          have hfi3 : ∀ f ∈ fs3.files,
              f ∈ fs.files ∨ f.1 = [deriveDirectoryName rawName, "rio.toml"] := by
            intro f hf
            rw [hf3] at hf
            exact hWf f hf
          have hne3 : fs3.files ≠ [] := by
            rw [hf3]
            exact writeF_files_ne_nil _ _ _
          split at hr
          · rename_i heq4
            rcases mkdirStrict_none_inv _ _ heq4 with hc | ⟨f, hf, heqf⟩ | ⟨-, hc⟩
            · rcases hd3' _ hc with h | h | h
              · exact (hF2 _ _ h).elim
              · simp at h
              · simp at h
            · rcases hfi3 f hf with hf' | hf'
              · exact (hF3 f hf' _ _ heqf).elim
              · rw [hf'] at heqf
                simp at heqf
            · exact (hc hmm3).elim
          · rename_i fs4 heq4
            obtain ⟨hd4, hf4⟩ := mkdirStrict_some_inv _ _ _ heq4
            have hd4' : ∀ q ∈ fs4.dirs, (q ∈ fs.dirs ∨ q = [deriveDirectoryName rawName] ∨
                q = [deriveDirectoryName rawName, deriveModuleName rawName]) ∨
                q = [deriveDirectoryName rawName, deriveModuleName rawName, "assets"] := by
              intro q hq
              rw [hd4] at hq
              rcases List.mem_append.mp hq with h | h
              · exact Or.inl (hd3' q h)
              · rw [List.mem_singleton] at h
                exact Or.inr h
            have hpd4 : [deriveDirectoryName rawName] ∈ fs4.dirs := by
              rw [hd4]; exact List.mem_append_left _ hpd3
            have hmm4 : [deriveDirectoryName rawName, deriveModuleName rawName] ∈ fs4.dirs := by
              rw [hd4]; exact List.mem_append_left _ hmm3
            have hfi4 : ∀ f ∈ fs4.files,
                f ∈ fs.files ∨ f.1 = [deriveDirectoryName rawName, "rio.toml"] := by
              intro f hf
              rw [hf4] at hf
              exact hfi3 f hf
            have hne4 : fs4.files ≠ [] := by
              rw [hf4]; exact hne3
            split at hr
            · rename_i heq5
              rcases mkdirStrict_none_inv _ _ heq5 with hc | ⟨f, hf, heqf⟩ | ⟨-, hc⟩
              · rcases hd4' _ hc with (h | h | h) | h
                · exact (hF2 _ _ h).elim
                · simp at h
                · simp at h
                · simp at h
              · rcases hfi4 f hf with hf' | hf'
                · exact (hF3 f hf' _ _ heqf).elim
                · rw [hf'] at heqf
                  simp at heqf
              · exact (hc hmm4).elim
            · rename_i fs5 heq5
              obtain ⟨hd5, hf5⟩ := mkdirStrict_some_inv _ _ _ heq5
              have hd5' : ∀ q ∈ fs5.dirs, ((q ∈ fs.dirs ∨ q = [deriveDirectoryName rawName] ∨
                  q = [deriveDirectoryName rawName, deriveModuleName rawName]) ∨
                  q = [deriveDirectoryName rawName, deriveModuleName rawName, "assets"]) ∨
                  q = [deriveDirectoryName rawName, deriveModuleName rawName, "components"] := by
                intro q hq
                rw [hd5] at hq
                rcases List.mem_append.mp hq with h | h
                · exact Or.inl (hd4' q h)
                · rw [List.mem_singleton] at h
                  exact Or.inr h
              have hpd5 : [deriveDirectoryName rawName] ∈ fs5.dirs := by
                rw [hd5]; exact List.mem_append_left _ hpd4
              have hmm5 : [deriveDirectoryName rawName, deriveModuleName rawName] ∈ fs5.dirs := by
                rw [hd5]; exact List.mem_append_left _ hmm4
              have hfi5 : ∀ f ∈ fs5.files,
                  f ∈ fs.files ∨ f.1 = [deriveDirectoryName rawName, "rio.toml"] := by
                intro f hf
                rw [hf5] at hf
                exact hfi4 f hf
              have hne5 : fs5.files ≠ [] := by
                rw [hf5]; exact hne4
              split at hr
              · rename_i heq6
                rcases mkdirStrict_none_inv _ _ heq6 with hc | ⟨f, hf, heqf⟩ | ⟨-, hc⟩
                · rcases hd5' _ hc with ((h | h | h) | h) | h
                  · exact (hF2 _ _ h).elim
                  · simp at h
                  · simp at h
                  · simp at h
                  · simp at h
                · rcases hfi5 f hf with hf' | hf'
                  · exact (hF3 f hf' _ _ heqf).elim
                  · rw [hf'] at heqf
                    simp at heqf
                · exact (hc hmm5).elim
              · rename_i fs6 heq6
                obtain ⟨hd6, hf6⟩ := mkdirStrict_some_inv _ _ _ heq6
                have hpd6 : [deriveDirectoryName rawName] ∈ fs6.dirs := by
                  rw [hd6]; exact List.mem_append_left _ hpd5
                have hne6 : fs6.files ≠ [] := by
                  rw [hf6]; exact hne5
                split at hr
                · rename_i e fsErr heqC
                  have h1 := congrArg Prod.fst heqC
                  rw [writeSnippetFiles_fst _ hsecC] at h1
                  simp at h1
                · rename_i fs8 heqC
                  have hc8 : _ = fs8 := congrArg Prod.snd heqC
                  have hpd8 : [deriveDirectoryName rawName] ∈ fs8.dirs := by
                    rw [← hc8, writeSnippetFiles_res_dirs _ hsecC, copyAssets_dirs]
                    exact hpd6
                  have hne8 : fs8.files ≠ [] := by
                    rw [← hc8]
                    apply writeSnippetFiles_res_files _ hsecC
                    apply copyAssets_files_ne_nil
                    exact hne6
                  split at hr
                  · rename_i e fsErr heqP
                    have h1 := congrArg Prod.fst heqP
                    rw [writeSnippetFiles_fst _ hsecP] at h1
                    simp at h1
                  · rename_i fs9 heqP
                    have hc9 : _ = fs9 := congrArg Prod.snd heqP
                    have hpd9 : [deriveDirectoryName rawName] ∈ fs9.dirs := by
                      rw [← hc9, writeSnippetFiles_res_dirs _ hsecP]
                      exact hpd8
                    have hne9 : fs9.files ≠ [] := by
                      rw [← hc9]
                      exact writeSnippetFiles_res_files _ hsecP _ _ hne8
                    subst hr
                    refine ⟨rfl, ?_, ?_⟩
                    · show [deriveDirectoryName rawName] ∈ (writeOtherFiles fs9
                        [deriveDirectoryName rawName, deriveModuleName rawName]
                        template.otherPythonFiles).dirs
                      rw [writeOtherFiles_dirs]
                      exact hpd9
                    · show (writeOtherFiles fs9
                        [deriveDirectoryName rawName, deriveModuleName rawName]
                        template.otherPythonFiles).files ≠ []
                      exact writeOtherFiles_files_ne_nil _ _ _ hne9
  exact hrun _ rfl

/-- Witness for the amended C1 at a concrete two-page template on a fresh
filesystem. -/
theorem create_project_multi_page_after_dirs_witness :
    (createProject "My App" ProjectType.website wTplTwoPages "c0ffee" "facade" wEmptyFS).1 =
      some SetupError.unsupportedConfiguration ∧
    projectDirOf "My App" ∈
      (createProject "My App" ProjectType.website wTplTwoPages "c0ffee" "facade" wEmptyFS).2.dirs ∧
    (createProject "My App" ProjectType.website wTplTwoPages "c0ffee" "facade" wEmptyFS).2.files ≠
      [] :=
  create_project_multi_page_after_dirs "My App" ProjectType.website wTplTwoPages "c0ffee"
    "facade" wEmptyFS (by decide) (by decide) (by decide) (by decide) (by decide)

/-- C1 counterexample: for a template with two page snippets on a fresh
filesystem, project creation does fail with the unsupported-configuration
condition, but at the moment of failure the project directory has been created
and generated files exist — contradicting the claim that the failure is
surfaced before any directory is created. -/
theorem create_project_multi_page_counterexample :
    (createProject "My App" ProjectType.website wTplTwoPages "c0ffee" "facade" wEmptyFS).1 =
      some SetupError.unsupportedConfiguration ∧
    ["my-app"] ∈
      (createProject "My App" ProjectType.website wTplTwoPages "c0ffee" "facade" wEmptyFS).2.dirs ∧
    (createProject "My App" ProjectType.website wTplTwoPages "c0ffee" "facade" wEmptyFS).2.files ≠
      [] :=
  ⟨by decide, by decide, by decide⟩

end RioSetup

